import Mathlib

/-!
Shallow embedding of the Gemini tool-calling agent (src/gemini/toolsAgent.py)
and the tool-less conversational agent (src/gemini/geminiTest.py).

The completion backend (google.genai generate_content) is external: each of
the at most two dispatches a run performs is supplied as a scripted outcome
(either a model `Content` or a backend fault).  The local filesystem touched
by the capability functions is modelled as a flat map from path to contents.
-/

namespace GenAI

/-- A value as it appears in tool arguments and tool results in this program:
a string, a boolean (`write_file` returns `True`), or a list of strings
(`list_dir` returns a list of names). -/
inductive JValue where
  | s (v : String)
  | b (v : Bool)
  | n (v : Int)
  | arr (vs : List String)
deriving Repr, DecidableEq

/-- Tool-call arguments: the `function_call.args` mapping. -/
abbrev Args := List (String × JValue)

/-- The filesystem seen by the capability functions: path to file contents. -/
abbrev FS := List (String × String)

/-- One part of a content entry: plain text, a model-emitted function call,
or a folded-back function response (the code wraps the raw return value as
the response payload). -/
inductive Part where
  | text (s : String)
  | functionCall (name : String) (args : Args)
  | functionResponse (name : String) (result : JValue)
deriving Repr, DecidableEq

/-- One entry of the conversation history (`self.contents` in the source):
a role together with its ordered parts. -/
structure Content where
  role : String
  parts : List Part
deriving Repr, DecidableEq

/-- The user turn appended at the start of `run`:
`{"role": "user", "parts": [{"text": contents}]}`. -/
def userTextTurn (t : String) : Content :=
  ⟨"user", [Part.text t]⟩

/-- The turn appended after a successful local tool invocation:
`{"role": "user", "parts": [{"function_response": {"name": n, "response": {"result": r}}}]}`. -/
def functionResponseTurn (name : String) (result : JValue) : Content :=
  ⟨"user", [Part.functionResponse name result]⟩

/-- Whether a part is a model function call (truthiness of `part.function_call`). -/
def isFunctionCallPart : Part → Bool
  | Part.functionCall _ _ => true
  | _ => false

/-- Whether a part is a folded-back tool result. -/
def isFunctionResponsePart : Part → Bool
  | Part.functionResponse _ _ => true
  | _ => false

/-- Total number of tool-result segments across a whole history. -/
def resultSegmentCount (cs : List Content) : Nat :=
  (cs.map fun c => c.parts.countP fun p => isFunctionResponsePart p).sum

end GenAI

instance {ε α : Type} [DecidableEq ε] [DecidableEq α] : DecidableEq (Except ε α) := fun a b =>
  match a, b with
  | Except.ok x, Except.ok y =>
      if h : x = y then isTrue (by rw [h])
      else isFalse (by intro hc; cases hc; exact h rfl)
  | Except.error x, Except.error y =>
      if h : x = y then isTrue (by rw [h])
      else isFalse (by intro hc; cases hc; exact h rfl)
  | Except.ok _, Except.error _ => isFalse (by intro hc; cases hc)
  | Except.error _, Except.ok _ => isFalse (by intro hc; cases hc)

open GenAI

namespace ToolsAgent

/-- A bound local capability function. It receives the model-supplied
arguments and the filesystem; it either returns a value or raises (the
`Except.error` case carries the exception message), possibly having
changed the filesystem. -/
abbrev ToolFn := Args → FS → Except String JValue × FS

/-- Python keyword-argument binding for a function whose parameters are all
required (as every tool function in the source is): calling
`f(**args)` raises `TypeError` before the body runs when a required
parameter is missing from `args` or `args` holds an unexpected key. -/
def callKw (params : List String) (body : Args → FS → Except String JValue × FS)
    (args : Args) (fs : FS) : Except String JValue × FS :=
  if params.all (fun p => (args.lookup p).isSome) &&
      args.all (fun kv => params.contains kv.1) then
    body args fs
  else
    (Except.error "TypeError: arguments do not match function signature", fs)

/-- `read_file(file_path)` from the source: return the file contents, raising
`FileNotFoundError` when the path is absent. -/
def read_file : ToolFn := fun args fs =>
  callKw ["file_path"]
    (fun a fs =>
      match a.lookup "file_path" with
      | some (JValue.s p) =>
          match fs.lookup p with
          | some body => (Except.ok (JValue.s body), fs)
          | none => (Except.error ("FileNotFoundError: " ++ p), fs)
      | _ => (Except.error "TypeError: file_path must be a string", fs))
    args fs

/-- Replace or create one file binding. -/
def setFile (fs : FS) (p body : String) : FS :=
  (p, body) :: fs.filter fun kv => kv.1 != p

/-- `write_file(file_path, contents)` from the source: write the contents and
return `True`. -/
def write_file : ToolFn := fun args fs =>
  callKw ["file_path", "contents"]
    (fun a fs =>
      match a.lookup "file_path", a.lookup "contents" with
      | some (JValue.s p), some (JValue.s body) =>
          (Except.ok (JValue.b true), setFile fs p body)
      | _, _ => (Except.error "TypeError: invalid argument types", fs))
    args fs

/-- `list_dir(directory_path)` from the source: list entries. The flat
filesystem model lists every known path. -/
def list_dir : ToolFn := fun args fs =>
  callKw ["directory_path"]
    (fun a fs =>
      match a.lookup "directory_path" with
      | some (JValue.s _) => (Except.ok (JValue.arr (fs.map fun kv => kv.1)), fs)
      | _ => (Except.error "TypeError: directory_path must be a string", fs))
    args fs

/-- The `file_tools` registry of the source, as name-to-function bindings
(the schema half of each entry is what `callKw` inside each function
enforces at the Python call boundary). -/
def file_tools : List (String × ToolFn) :=
  [("read_file", read_file), ("write_file", write_file), ("list_dir", list_dir)]

/-- The agent state the source mutates: the registry and the history. -/
structure Agent where
  tools : List (String × ToolFn)
  contents : List Content

/-- A fault escaping `Agent.run` uncaught: a backend error from
`generate_content`, or an exception raised while invoking a tool function. -/
inductive Fault where
  | backend (msg : String)
  | toolException (msg : String)
deriving Repr, DecidableEq

/-- Everything one `Agent.run` call produced: the history afterwards, the
filesystem afterwards, the returned response or the escaping fault, how many
backend dispatches were issued, and which registered tools were invoked
locally (in invocation order). -/
structure RunResult where
  contents : List Content
  fs : FS
  result : Except Fault Content
  dispatches : Nat
  executed : List String
deriving Repr, DecidableEq

/-- Lines 238-242 of the source: `parts and parts[0].function_call` — the
decision looks only at the first part. -/
def has_function_call (c : Content) : Bool :=
  match c.parts with
  | [] => false
  | p :: _ => isFunctionCallPart p

/-- Lines 248-252 of the source: collect every function call, from all parts. -/
def function_calls (c : Content) : List (String × Args) :=
  c.parts.filterMap fun p =>
    match p with
    | Part.functionCall nm a => some (nm, a)
    | _ => none

/-- Intermediate state of the tool-execution loop. -/
structure ExecState where
  contents : List Content
  fs : FS
  executed : List String
deriving Repr, DecidableEq

/-- Lines 257-282 of the source: for each function call, when its name is in
the registry invoke the bound function and append one `function_response`
turn; an unknown name is skipped (no `else` branch exists); a raised
exception aborts the loop and escapes. -/
def execCalls (tools : List (String × ToolFn)) :
    List (String × Args) → ExecState → Except (String × ExecState) ExecState
  | [], st => Except.ok st
  | (nm, args) :: rest, st =>
    match tools.lookup nm with
    | none => execCalls tools rest st
    | some f =>
      match f args st.fs with
      | (Except.error e, fs1) =>
          Except.error (e, ⟨st.contents, fs1, st.executed ++ [nm]⟩)
      | (Except.ok v, fs1) =>
          execCalls tools rest
            ⟨st.contents ++ [functionResponseTurn nm v], fs1, st.executed ++ [nm]⟩

/-- `Agent.run` from the source (lines 193-305). `r1` and `r2` script the
outcomes the backend would give to the first and (if reached) second
`generate_content` call. -/
def run (ag : Agent) (fs0 : FS) (r1 r2 : Except String Content) (userText : String) :
    RunResult :=
  match r1 with
  | Except.error e =>
      ⟨ag.contents ++ [userTextTurn userText], fs0, Except.error (Fault.backend e), 1, []⟩
  | Except.ok resp1 =>
    if has_function_call resp1 then
      match execCalls ag.tools (function_calls resp1)
          ⟨ag.contents ++ [userTextTurn userText, resp1], fs0, []⟩ with
      | Except.error (e, st) =>
          ⟨st.contents, st.fs, Except.error (Fault.toolException e), 1, st.executed⟩
      | Except.ok st =>
        match r2 with
        | Except.error e =>
            ⟨st.contents, st.fs, Except.error (Fault.backend e), 2, st.executed⟩
        | Except.ok resp2 =>
            ⟨st.contents ++ [resp2], st.fs, Except.ok resp2, 2, st.executed⟩
    else
      ⟨ag.contents ++ [userTextTurn userText, resp1], fs0, Except.ok resp1, 1, []⟩

/-- A sequence of `run` calls on one session, each with its scripted backend
outcomes and user text; the history and filesystem carry over. -/
def runSeq (ag : Agent) (fs : FS) :
    List (Except String Content × Except String Content × String) → Agent × FS
  | [] => (ag, fs)
  | (r1, r2, t) :: rest =>
      runSeq ⟨ag.tools, (run ag fs r1 r2 t).contents⟩ (run ag fs r1 r2 t).fs rest

/-- The loop state the tool-execution loop leaves behind, whether it finished
or was aborted by a raised exception. -/
def execOutState : Except (String × ExecState) ExecState → ExecState
  | Except.ok st => st
  | Except.error (_, st) => st

/-- A registered stand-in tool returning a fixed value and leaving the
filesystem unchanged. -/
def stubTool (v : JValue) : ToolFn := fun _ fs => (Except.ok v, fs)

end ToolsAgent

namespace GeminiTest

/-- One outcome of `Agent.run` in geminiTest.py. -/
structure RunResult where
  contents : List Content
  result : Except String Content
  dispatches : Nat
deriving Repr, DecidableEq

/-- `Agent.run` from geminiTest.py (lines 8-12): append the user turn,
dispatch once, append the response content, return the response. -/
def run (cs : List Content) (r : Except String Content) (userText : String) : RunResult :=
  match r with
  | Except.error e => ⟨cs ++ [userTextTurn userText], Except.error e, 1⟩
  | Except.ok resp => ⟨cs ++ [userTextTurn userText, resp], Except.ok resp, 1⟩

/-- A sequence of successful `run` calls, each with its user text and the
model content the backend returned. -/
def runSeq (cs : List Content) : List (String × Content) → List Content
  | [] => cs
  | (t, resp) :: rest => runSeq (run cs (Except.ok resp) t).contents rest

end GeminiTest

namespace ToolsAgent

theorem execCalls_nil (tools : List (String × ToolFn)) (st : ExecState) :
    execCalls tools [] st = Except.ok st := rfl

theorem execCalls_cons_unknown (tools : List (String × ToolFn)) (nm : String) (args : Args)
    (rest : List (String × Args)) (st : ExecState) (h : tools.lookup nm = none) :
    execCalls tools ((nm, args) :: rest) st = execCalls tools rest st := by
  simp only [execCalls, h]

theorem execCalls_cons_raised (tools : List (String × ToolFn)) (nm : String) (args : Args)
    (rest : List (String × Args)) (st : ExecState) (f : ToolFn) (e : String) (fs1 : FS)
    (hlk : tools.lookup nm = some f) (hf : f args st.fs = (Except.error e, fs1)) :
    execCalls tools ((nm, args) :: rest) st =
      Except.error (e, ⟨st.contents, fs1, st.executed ++ [nm]⟩) := by
  simp only [execCalls, hlk, hf]

theorem execCalls_cons_ok (tools : List (String × ToolFn)) (nm : String) (args : Args)
    (rest : List (String × Args)) (st : ExecState) (f : ToolFn) (v : JValue) (fs1 : FS)
    (hlk : tools.lookup nm = some f) (hf : f args st.fs = (Except.ok v, fs1)) :
    execCalls tools ((nm, args) :: rest) st =
      execCalls tools rest
        ⟨st.contents ++ [functionResponseTurn nm v], fs1, st.executed ++ [nm]⟩ := by
  simp only [execCalls, hlk, hf]

theorem execCalls_extends (tools : List (String × ToolFn)) :
    ∀ (calls : List (String × Args)) (st : ExecState),
      ∃ suf, (execOutState (execCalls tools calls st)).contents = st.contents ++ suf := by
  intro calls
  induction calls with
  | nil => intro st; exact ⟨[], by simp [execCalls, execOutState]⟩
  | cons c rest ih =>
    intro st
    obtain ⟨nm, args⟩ := c
    cases hlk : tools.lookup nm with
    | none =>
      rw [execCalls_cons_unknown tools nm args rest st hlk]
      exact ih st
    | some f =>
      cases hf : f args st.fs with
      | mk r fs1 =>
        cases r with
        | error e =>
          rw [execCalls_cons_raised tools nm args rest st f e fs1 hlk hf]
          exact ⟨[], by simp [execOutState]⟩
        | ok v =>
          rw [execCalls_cons_ok tools nm args rest st f v fs1 hlk hf]
          obtain ⟨suf, hs⟩ :=
            ih ⟨st.contents ++ [functionResponseTurn nm v], fs1, st.executed ++ [nm]⟩
          exact ⟨functionResponseTurn nm v :: suf, by simpa using hs⟩

theorem execCalls_all_unknown (tools : List (String × ToolFn)) :
    ∀ (calls : List (String × Args)) (st : ExecState),
      (∀ c ∈ calls, tools.lookup c.1 = none) → execCalls tools calls st = Except.ok st := by
  intro calls
  induction calls with
  | nil => intro st _; rfl
  | cons c rest ih =>
    intro st h
    obtain ⟨nm, args⟩ := c
    have h0 : tools.lookup nm = none := h (nm, args) (List.mem_cons_self _ _)
    rw [execCalls_cons_unknown tools nm args rest st h0]
    exact ih st fun c hc => h c (List.mem_cons_of_mem _ hc)

theorem execCalls_all_ok (tools : List (String × ToolFn)) (res : String → Args → JValue) :
    ∀ (calls : List (String × Args)) (st : ExecState),
      (∀ c ∈ calls, ∃ f, tools.lookup c.1 = some f ∧
          ∀ fs, f c.2 fs = (Except.ok (res c.1 c.2), fs)) →
      execCalls tools calls st =
        Except.ok ⟨st.contents ++ calls.map (fun c => functionResponseTurn c.1 (res c.1 c.2)),
          st.fs, st.executed ++ calls.map Prod.fst⟩ := by
  intro calls
  induction calls with
  | nil => intro st _; simp [execCalls]
  | cons c rest ih =>
    intro st h
    obtain ⟨nm, args⟩ := c
    obtain ⟨f, hlk, hf⟩ := h (nm, args) (List.mem_cons_self _ _)
    rw [execCalls_cons_ok tools nm args rest st f (res nm args) st.fs hlk (hf st.fs)]
    rw [ih ⟨st.contents ++ [functionResponseTurn nm (res nm args)], st.fs, st.executed ++ [nm]⟩
      (fun c hc => h c (List.mem_cons_of_mem _ hc))]
    simp

theorem run_extends (ag : Agent) (fs : FS) (r1 r2 : Except String Content) (t : String) :
    ∃ suf, (run ag fs r1 r2 t).contents = ag.contents ++ suf ∧ suf ≠ [] := by
  cases r1 with
  | error e => exact ⟨[userTextTurn t], rfl, by simp⟩
  | ok resp1 =>
    by_cases hfc : has_function_call resp1
    · obtain ⟨suf, hs⟩ := execCalls_extends ag.tools (function_calls resp1)
        ⟨ag.contents ++ [userTextTurn t, resp1], fs, []⟩
      simp only [run, hfc, if_true]
      cases hE : execCalls ag.tools (function_calls resp1)
          ⟨ag.contents ++ [userTextTurn t, resp1], fs, []⟩ with
      | error p =>
        obtain ⟨e, st⟩ := p
        rw [hE] at hs
        simp only [execOutState] at hs
        exact ⟨[userTextTurn t, resp1] ++ suf, by simp [hs], by simp⟩
      | ok st =>
        rw [hE] at hs
        simp only [execOutState] at hs
        cases r2 with
        | error e2 => exact ⟨[userTextTurn t, resp1] ++ suf, by simp [hs], by simp⟩
        | ok resp2 =>
          exact ⟨[userTextTurn t, resp1] ++ suf ++ [resp2], by simp [hs], by simp⟩
    · exact ⟨[userTextTurn t, resp1], by simp [run, hfc], by simp⟩

theorem run_head_call_raises (ag : Agent) (fs0 fs1 : FS) (resp1 : Content)
    (r2 : Except String Content) (t nm : String) (a : Args) (rest : List (String × Args))
    (f : ToolFn) (e : String)
    (hfc : has_function_call resp1 = true)
    (hcalls : function_calls resp1 = (nm, a) :: rest)
    (hlk : ag.tools.lookup nm = some f)
    (hf : f a fs0 = (Except.error e, fs1)) :
    run ag fs0 (Except.ok resp1) r2 t =
      ⟨ag.contents ++ [userTextTurn t, resp1], fs1,
        Except.error (Fault.toolException e), 1, [nm]⟩ := by
  have hE : execCalls ag.tools (function_calls resp1)
      ⟨ag.contents ++ [userTextTurn t, resp1], fs0, []⟩ =
      Except.error (e, ⟨ag.contents ++ [userTextTurn t, resp1], fs1, [nm]⟩) := by
    rw [hcalls, execCalls_cons_raised ag.tools nm a rest
      ⟨ag.contents ++ [userTextTurn t, resp1], fs0, []⟩ f e fs1 hlk hf]
    rfl
  simp [run, hfc, hE]

end ToolsAgent

theorem geminiTest_runSeq_length (steps : List (String × Content)) :
    ∀ cs : List Content, (GeminiTest.runSeq cs steps).length = cs.length + 2 * steps.length := by
  induction steps with
  | nil => intro cs; simp [GeminiTest.runSeq]
  | cons stp rest ih =>
    intro cs
    obtain ⟨t, resp⟩ := stp
    simp only [GeminiTest.runSeq, GeminiTest.run]
    rw [ih]
    simp
    omega

open ToolsAgent

/-- C1 counterexample: the first response requests the unregistered tool
`does_not_exist`; the run completes without a fault, yet no result segment
(error payload or otherwise) is ever appended to the conversation, contrary
to the claimed `error: unknown tool` result segment. -/
theorem unknown_tool_produces_no_error_result_ce :
    resultSegmentCount (run ⟨file_tools, []⟩ []
        (Except.ok ⟨"model", [Part.functionCall "does_not_exist" []]⟩)
        (Except.ok ⟨"model", [Part.text "done"]⟩) "hi").contents = 0 ∧
    (run ⟨file_tools, []⟩ []
        (Except.ok ⟨"model", [Part.functionCall "does_not_exist" []]⟩)
        (Except.ok ⟨"model", [Part.text "done"]⟩) "hi").dispatches = 2 ∧
    (run ⟨file_tools, []⟩ []
        (Except.ok ⟨"model", [Part.functionCall "does_not_exist" []]⟩)
        (Except.ok ⟨"model", [Part.text "done"]⟩) "hi").result =
      Except.ok ⟨"model", [Part.text "done"]⟩ := by
  decide

/-- C1 amended: a tool-call request whose name is absent from the registry is
silently skipped — no result segment of any kind is appended for it, no
fault is raised, and the run proceeds to the second dispatch with the
history unchanged beyond the user and model turns. -/
theorem unknown_tool_skipped_silently (ag : Agent) (fs : FS) (resp1 resp2 : Content)
    (t : String)
    (hfc : has_function_call resp1 = true)
    (hunk : ∀ c ∈ function_calls resp1, ag.tools.lookup c.1 = none) :
    run ag fs (Except.ok resp1) (Except.ok resp2) t =
      ⟨ag.contents ++ [userTextTurn t, resp1, resp2], fs, Except.ok resp2, 2, []⟩ := by
  have hE := execCalls_all_unknown ag.tools (function_calls resp1)
    ⟨ag.contents ++ [userTextTurn t, resp1], fs, []⟩ hunk
  simp [run, hfc, hE]

/-- C1 witness: the amended statement evaluated on an empty registry and a
single unknown request. -/
theorem unknown_tool_skipped_silently_wit :
    run ⟨[], []⟩ [] (Except.ok ⟨"model", [Part.functionCall "nope_tool" []]⟩)
        (Except.ok ⟨"model", [Part.text "fine"]⟩) "q" =
      ⟨[userTextTurn "q", ⟨"model", [Part.functionCall "nope_tool" []]⟩,
        ⟨"model", [Part.text "fine"]⟩], [], Except.ok ⟨"model", [Part.text "fine"]⟩, 2, []⟩ :=
  unknown_tool_skipped_silently ⟨[], []⟩ [] ⟨"model", [Part.functionCall "nope_tool" []]⟩
    ⟨"model", [Part.text "fine"]⟩ "q" rfl (fun _ _ => rfl)

/-- C2 counterexample: `read_file` on a missing path raises; the exception
escapes `run` uncaught after a single dispatch, so the second dispatch never
takes place, contrary to the claimed catch-and-convert behaviour. -/
theorem tool_exception_not_caught_ce :
    (run ⟨file_tools, []⟩ []
        (Except.ok ⟨"model", [Part.functionCall "read_file" [("file_path", JValue.s "/nope")]]⟩)
        (Except.ok ⟨"model", [Part.text "done"]⟩) "hi").result =
      Except.error (Fault.toolException "FileNotFoundError: /nope") ∧
    (run ⟨file_tools, []⟩ []
        (Except.ok ⟨"model", [Part.functionCall "read_file" [("file_path", JValue.s "/nope")]]⟩)
        (Except.ok ⟨"model", [Part.text "done"]⟩) "hi").dispatches = 1 ∧
    resultSegmentCount (run ⟨file_tools, []⟩ []
        (Except.ok ⟨"model", [Part.functionCall "read_file" [("file_path", JValue.s "/nope")]]⟩)
        (Except.ok ⟨"model", [Part.text "done"]⟩) "hi").contents = 0 := by
  decide

/-- C2 amended: an exception raised by an invoked tool function propagates
out of `run` as an uncaught fault; no result segment is appended for the
failing call and the second dispatch does not take place (shown for the
request at the head of the extracted call list, whatever is scripted for
the second dispatch). -/
theorem tool_exception_propagates (ag : Agent) (fs0 fs1 : FS) (resp1 : Content)
    (r2 : Except String Content) (t nm : String) (a : Args) (rest : List (String × Args))
    (f : ToolFn) (e : String)
    (hfc : has_function_call resp1 = true)
    (hcalls : function_calls resp1 = (nm, a) :: rest)
    (hlk : ag.tools.lookup nm = some f)
    (hf : f a fs0 = (Except.error e, fs1)) :
    run ag fs0 (Except.ok resp1) r2 t =
      ⟨ag.contents ++ [userTextTurn t, resp1], fs1,
        Except.error (Fault.toolException e), 1, [nm]⟩ :=
  run_head_call_raises ag fs0 fs1 resp1 r2 t nm a rest f e hfc hcalls hlk hf

/-- C2 witness: `read_file` applied to a path absent from the filesystem. -/
theorem tool_exception_propagates_wit :
    run ⟨file_tools, []⟩ []
        (Except.ok ⟨"model", [Part.functionCall "read_file" [("file_path", JValue.s "/missing")]]⟩)
        (Except.ok ⟨"model", [Part.text "later"]⟩) "q" =
      ⟨[userTextTurn "q",
        ⟨"model", [Part.functionCall "read_file" [("file_path", JValue.s "/missing")]]⟩],
        [], Except.error (Fault.toolException "FileNotFoundError: /missing"), 1, ["read_file"]⟩ :=
  tool_exception_propagates ⟨file_tools, []⟩ [] []
    ⟨"model", [Part.functionCall "read_file" [("file_path", JValue.s "/missing")]]⟩
    (Except.ok ⟨"model", [Part.text "later"]⟩) "q" "read_file"
    [("file_path", JValue.s "/missing")] [] read_file "FileNotFoundError: /missing"
    rfl rfl rfl rfl

/-- C3 counterexample: two registered tools are requested; the code appends
two separate single-segment result turns (final store has 5 turns), not one
user turn carrying both result segments (which would leave 4 turns). -/
theorem results_not_single_turn_ce :
    (run ⟨[("ta", stubTool (JValue.s "ra")), ("tb", stubTool (JValue.s "rb"))], []⟩ []
        (Except.ok ⟨"model", [Part.functionCall "ta" [], Part.functionCall "tb" []]⟩)
        (Except.ok ⟨"model", [Part.text "done"]⟩) "m").contents =
      [userTextTurn "m", ⟨"model", [Part.functionCall "ta" [], Part.functionCall "tb" []]⟩,
        functionResponseTurn "ta" (JValue.s "ra"), functionResponseTurn "tb" (JValue.s "rb"),
        ⟨"model", [Part.text "done"]⟩] ∧
    (run ⟨[("ta", stubTool (JValue.s "ra")), ("tb", stubTool (JValue.s "rb"))], []⟩ []
        (Except.ok ⟨"model", [Part.functionCall "ta" [], Part.functionCall "tb" []]⟩)
        (Except.ok ⟨"model", [Part.text "done"]⟩) "m").contents.length ≠ 4 := by
  decide

/-- C3 amended: when tool handling is entered and every requested tool is
registered and returns successfully, one separate user-role turn carrying
exactly one result segment with the matching name is appended per request,
in the order the requests were emitted (not a single combined turn). -/
theorem one_result_turn_per_request (ag : Agent) (fs0 : FS) (resp1 resp2 : Content)
    (t : String) (res : String → Args → JValue)
    (hfc : has_function_call resp1 = true)
    (hok : ∀ c ∈ function_calls resp1, ∃ f, ag.tools.lookup c.1 = some f ∧
        ∀ fs, f c.2 fs = (Except.ok (res c.1 c.2), fs)) :
    run ag fs0 (Except.ok resp1) (Except.ok resp2) t =
      ⟨ag.contents ++ [userTextTurn t, resp1] ++
          (function_calls resp1).map (fun c => functionResponseTurn c.1 (res c.1 c.2)) ++ [resp2],
        fs0, Except.ok resp2, 2, (function_calls resp1).map Prod.fst⟩ := by
  have hE := execCalls_all_ok ag.tools res (function_calls resp1)
    ⟨ag.contents ++ [userTextTurn t, resp1], fs0, []⟩ hok
  simp [run, hfc, hE]

/-- C3 witness: two stub tools, both requested; the amended shape evaluated. -/
theorem one_result_turn_per_request_wit :
    run ⟨[("ta", stubTool (JValue.s "ra")), ("tb", stubTool (JValue.s "rb"))], []⟩ []
        (Except.ok ⟨"model", [Part.functionCall "ta" [], Part.functionCall "tb" []]⟩)
        (Except.ok ⟨"model", [Part.text "ok"]⟩) "w" =
      ⟨[userTextTurn "w", ⟨"model", [Part.functionCall "ta" [], Part.functionCall "tb" []]⟩,
        functionResponseTurn "ta" (JValue.s "ra"), functionResponseTurn "tb" (JValue.s "rb"),
        ⟨"model", [Part.text "ok"]⟩], [], Except.ok ⟨"model", [Part.text "ok"]⟩, 2, ["ta", "tb"]⟩ :=
  one_result_turn_per_request
    ⟨[("ta", stubTool (JValue.s "ra")), ("tb", stubTool (JValue.s "rb"))], []⟩ []
    ⟨"model", [Part.functionCall "ta" [], Part.functionCall "tb" []]⟩
    ⟨"model", [Part.text "ok"]⟩ "w"
    (fun nm _ => if nm = "ta" then JValue.s "ra" else JValue.s "rb")
    rfl
    (by
      intro c hc
      have hc2 : c ∈ [(("ta" : String), ([] : Args)), ("tb", [])] := hc
      simp only [List.mem_cons, List.not_mem_nil, or_false] at hc2
      rcases hc2 with rfl | rfl
      · exact ⟨stubTool (JValue.s "ra"), rfl, fun fs => rfl⟩
      · exact ⟨stubTool (JValue.s "rb"), rfl, fun fs => rfl⟩)

/-- C4 counterexample: `write_file` called without the required `contents`
argument. No error-payload result segment is produced; instead an uncaught
`TypeError` fault aborts the run after one dispatch. The filesystem is
untouched (the claim is right about that part alone). -/
theorem argument_validation_absent_ce :
    (run ⟨file_tools, []⟩ []
        (Except.ok ⟨"model", [Part.functionCall "write_file" [("file_path", JValue.s "/tmp/x")]]⟩)
        (Except.ok ⟨"model", [Part.text "done"]⟩) "hi").result =
      Except.error (Fault.toolException "TypeError: arguments do not match function signature") ∧
    (run ⟨file_tools, []⟩ []
        (Except.ok ⟨"model", [Part.functionCall "write_file" [("file_path", JValue.s "/tmp/x")]]⟩)
        (Except.ok ⟨"model", [Part.text "done"]⟩) "hi").fs = [] ∧
    (run ⟨file_tools, []⟩ []
        (Except.ok ⟨"model", [Part.functionCall "write_file" [("file_path", JValue.s "/tmp/x")]]⟩)
        (Except.ok ⟨"model", [Part.text "done"]⟩) "hi").dispatches = 1 ∧
    resultSegmentCount (run ⟨file_tools, []⟩ []
        (Except.ok ⟨"model", [Part.functionCall "write_file" [("file_path", JValue.s "/tmp/x")]]⟩)
        (Except.ok ⟨"model", [Part.text "done"]⟩) "hi").contents = 0 := by
  decide

theorem callKw_bad (params : List String) (body : Args → FS → Except String JValue × FS)
    (args : Args) (fs : FS)
    (h : (params.all (fun p => (args.lookup p).isSome) &&
        args.all fun kv => params.contains kv.1) = false) :
    callKw params body args fs =
      (Except.error "TypeError: arguments do not match function signature", fs) := by
  unfold callKw
  rw [h]
  simp

/-- C4 amended: no validation step exists; an argument set that does not
match `write_file`'s signature (missing required key or unexpected extra
key) makes the keyword-binding step raise `TypeError`, which escapes `run`
uncaught after one dispatch; the function body never runs, so the
filesystem is unchanged and no result segment is appended. -/
theorem missing_required_argument_faults (ag : Agent) (fs0 : FS) (a : Args)
    (r2 : Except String Content) (t : String)
    (hlk : ag.tools.lookup "write_file" = some write_file)
    (hbad : (["file_path", "contents"].all (fun p => (a.lookup p).isSome) &&
        a.all fun kv => ["file_path", "contents"].contains kv.1) = false) :
    run ag fs0 (Except.ok ⟨"model", [Part.functionCall "write_file" a]⟩) r2 t =
      ⟨ag.contents ++ [userTextTurn t, ⟨"model", [Part.functionCall "write_file" a]⟩], fs0,
        Except.error (Fault.toolException "TypeError: arguments do not match function signature"),
        1, ["write_file"]⟩ := by
  have hw : write_file a fs0 =
      (Except.error "TypeError: arguments do not match function signature", fs0) :=
    callKw_bad ["file_path", "contents"] _ a fs0 hbad
  exact run_head_call_raises ag fs0 fs0 ⟨"model", [Part.functionCall "write_file" a]⟩ r2 t
    "write_file" a [] write_file "TypeError: arguments do not match function signature"
    rfl rfl hlk hw

/-- C4 witness: `write_file` with only `file_path` supplied, against the
real registry. -/
theorem missing_required_argument_faults_wit :
    run ⟨file_tools, []⟩ []
        (Except.ok ⟨"model", [Part.functionCall "write_file" [("file_path", JValue.s "/w")]]⟩)
        (Except.ok ⟨"model", [Part.text "later"]⟩) "p" =
      ⟨[userTextTurn "p", ⟨"model", [Part.functionCall "write_file" [("file_path", JValue.s "/w")]]⟩],
        [], Except.error
          (Fault.toolException "TypeError: arguments do not match function signature"),
        1, ["write_file"]⟩ :=
  missing_required_argument_faults ⟨file_tools, []⟩ [] [("file_path", JValue.s "/w")]
    (Except.ok ⟨"model", [Part.text "later"]⟩) "p" rfl (by decide)

/-- C5 counterexample: a first response mixing a leading text segment with a
tool-call segment for the registered tool `list_dir` triggers no tool
handling at all — one dispatch, nothing executed, the mixed response
returned — because the decision inspects only the first part. -/
theorem mixed_response_skips_tools_ce :
    (run ⟨file_tools, []⟩ []
        (Except.ok ⟨"model", [Part.text "checking",
          Part.functionCall "list_dir" [("directory_path", JValue.s ".")]]⟩)
        (Except.ok ⟨"model", [Part.text "done"]⟩) "what files").dispatches = 1 ∧
    (run ⟨file_tools, []⟩ []
        (Except.ok ⟨"model", [Part.text "checking",
          Part.functionCall "list_dir" [("directory_path", JValue.s ".")]]⟩)
        (Except.ok ⟨"model", [Part.text "done"]⟩) "what files").executed = [] ∧
    (run ⟨file_tools, []⟩ []
        (Except.ok ⟨"model", [Part.text "checking",
          Part.functionCall "list_dir" [("directory_path", JValue.s ".")]]⟩)
        (Except.ok ⟨"model", [Part.text "done"]⟩) "what files").result =
      Except.ok ⟨"model", [Part.text "checking",
        Part.functionCall "list_dir" [("directory_path", JValue.s ".")]]⟩ := by
  decide

/-- C5 amended: tool handling proceeds iff the FIRST segment of the first
response is a tool-call request. A text-first response is returned directly
after one dispatch however many tool-call segments follow; when the first
segment is a request, every tool-call segment in any position is collected
and executed. -/
theorem tool_handling_first_segment_only :
    (∀ (ag : Agent) (fs : FS) (r2 : Except String Content) (t ρ s : String) (ps : List Part),
      run ag fs (Except.ok ⟨ρ, Part.text s :: ps⟩) r2 t =
        ⟨ag.contents ++ [userTextTurn t, ⟨ρ, Part.text s :: ps⟩], fs,
          Except.ok ⟨ρ, Part.text s :: ps⟩, 1, []⟩) ∧
    (∀ (ag : Agent) (fs : FS) (t ρ nm : String) (a : Args) (ps : List Part) (resp2 : Content)
        (res : String → Args → JValue),
      (∀ c ∈ function_calls ⟨ρ, Part.functionCall nm a :: ps⟩, ∃ f,
          ag.tools.lookup c.1 = some f ∧ ∀ fs2, f c.2 fs2 = (Except.ok (res c.1 c.2), fs2)) →
      (run ag fs (Except.ok ⟨ρ, Part.functionCall nm a :: ps⟩) (Except.ok resp2) t).executed =
          (function_calls ⟨ρ, Part.functionCall nm a :: ps⟩).map Prod.fst ∧
        (run ag fs (Except.ok ⟨ρ, Part.functionCall nm a :: ps⟩) (Except.ok resp2) t).dispatches
          = 2) := by
  constructor
  · intro ag fs r2 t ρ s ps
    have hfc : has_function_call ⟨ρ, Part.text s :: ps⟩ = false := rfl
    simp [run, hfc]
  · intro ag fs t ρ nm a ps resp2 res hok
    have hfc : has_function_call ⟨ρ, Part.functionCall nm a :: ps⟩ = true := rfl
    have hE := execCalls_all_ok ag.tools res (function_calls ⟨ρ, Part.functionCall nm a :: ps⟩)
      ⟨ag.contents ++ [userTextTurn t, ⟨ρ, Part.functionCall nm a :: ps⟩], fs, []⟩ hok
    refine ⟨?_, ?_⟩ <;> simp [run, hfc, hE]

/-- C5 witness: conjunct one at a mixed text-then-call response; conjunct
two at a call-first response whose later segments hold one more call. -/
theorem tool_handling_first_segment_only_wit :
    run ⟨file_tools, []⟩ []
        (Except.ok ⟨"model", [Part.text "let me see",
          Part.functionCall "list_dir" [("directory_path", JValue.s ".")]]⟩)
        (Except.ok ⟨"model", [Part.text "fin"]⟩) "w" =
      ⟨[userTextTurn "w", ⟨"model", [Part.text "let me see",
          Part.functionCall "list_dir" [("directory_path", JValue.s ".")]]⟩], [],
        Except.ok ⟨"model", [Part.text "let me see",
          Part.functionCall "list_dir" [("directory_path", JValue.s ".")]]⟩, 1, []⟩ ∧
    (run ⟨[("tc", stubTool (JValue.s "rc")), ("td", stubTool (JValue.s "rd"))], []⟩ []
        (Except.ok ⟨"model", [Part.functionCall "td" [], Part.text "and",
          Part.functionCall "tc" []]⟩)
        (Except.ok ⟨"model", [Part.text "fin2"]⟩) "w2").executed = ["td", "tc"] ∧
    (run ⟨[("tc", stubTool (JValue.s "rc")), ("td", stubTool (JValue.s "rd"))], []⟩ []
        (Except.ok ⟨"model", [Part.functionCall "td" [], Part.text "and",
          Part.functionCall "tc" []]⟩)
        (Except.ok ⟨"model", [Part.text "fin2"]⟩) "w2").dispatches = 2 := by
  have hok : ∀ c ∈ function_calls ⟨"model", [Part.functionCall "td" [], Part.text "and",
      Part.functionCall "tc" []]⟩, ∃ f,
      (⟨[("tc", stubTool (JValue.s "rc")), ("td", stubTool (JValue.s "rd"))], []⟩ :
        Agent).tools.lookup c.1 = some f ∧
      ∀ fs2, f c.2 fs2 = (Except.ok
        ((fun nm (_ : Args) => if nm = "td" then JValue.s "rd" else JValue.s "rc") c.1 c.2), fs2) := by
    intro c hc
    have hc2 : c ∈ [(("td" : String), ([] : Args)), ("tc", [])] := hc
    simp only [List.mem_cons, List.not_mem_nil, or_false] at hc2
    rcases hc2 with rfl | rfl
    · exact ⟨stubTool (JValue.s "rd"), rfl, fun fs2 => rfl⟩
    · exact ⟨stubTool (JValue.s "rc"), rfl, fun fs2 => rfl⟩
  exact ⟨tool_handling_first_segment_only.1 ⟨file_tools, []⟩ []
      (Except.ok ⟨"model", [Part.text "fin"]⟩) "w" "model" "let me see"
      [Part.functionCall "list_dir" [("directory_path", JValue.s ".")]],
    (tool_handling_first_segment_only.2 ⟨[("tc", stubTool (JValue.s "rc")),
      ("td", stubTool (JValue.s "rd"))], []⟩ [] "w2" "model" "td" []
      [Part.text "and", Part.functionCall "tc" []] ⟨"model", [Part.text "fin2"]⟩
      (fun nm _ => if nm = "td" then JValue.s "rd" else JValue.s "rc") hok).1,
    (tool_handling_first_segment_only.2 ⟨[("tc", stubTool (JValue.s "rc")),
      ("td", stubTool (JValue.s "rd"))], []⟩ [] "w2" "model" "td" []
      [Part.text "and", Part.functionCall "tc" []] ⟨"model", [Part.text "fin2"]⟩
      (fun nm _ => if nm = "td" then JValue.s "rd" else JValue.s "rc") hok).2⟩

/-- C6 confirmed: a run issues at most two dispatches; what was executed
locally and the resulting filesystem are independent of whatever the second
dispatch returns (so tool-call segments in the second response are never
executed); and when a second dispatch happens its response is returned
as-is. -/
theorem at_most_one_tool_round (ag : Agent) (fs : FS) (r1 r2 : Except String Content)
    (t : String) (resp2 resp2a : Content) :
    (run ag fs r1 r2 t).dispatches ≤ 2 ∧
    (run ag fs r1 (Except.ok resp2) t).executed = (run ag fs r1 (Except.ok resp2a) t).executed ∧
    (run ag fs r1 (Except.ok resp2) t).fs = (run ag fs r1 (Except.ok resp2a) t).fs ∧
    ((run ag fs r1 (Except.ok resp2) t).dispatches = 2 →
      (run ag fs r1 (Except.ok resp2) t).result = Except.ok resp2) := by
  cases r1 with
  | error e =>
    refine ⟨(by decide : (1 : Nat) ≤ 2), rfl, rfl, ?_⟩
    intro h
    have h2 : (1 : Nat) = 2 := h
    exact absurd h2 (by decide)
  | ok resp1 =>
    by_cases hfc : has_function_call resp1
    · simp only [run, hfc, if_true]
      cases hE : execCalls ag.tools (function_calls resp1)
          ⟨ag.contents ++ [userTextTurn t, resp1], fs, []⟩ with
      | error p =>
        obtain ⟨e, st⟩ := p
        refine ⟨(by decide : (1 : Nat) ≤ 2), rfl, rfl, ?_⟩
        intro h
        have h2 : (1 : Nat) = 2 := h
        exact absurd h2 (by decide)
      | ok st =>
        refine ⟨?_, rfl, rfl, fun _ => rfl⟩
        cases r2 with
        | error e2 => exact (by decide : (2 : Nat) ≤ 2)
        | ok resp2b => exact (by decide : (2 : Nat) ≤ 2)
    · simp only [run, hfc]
      refine ⟨(by decide : (1 : Nat) ≤ 2), rfl, rfl, ?_⟩
      intro h
      have h2 : (1 : Nat) = 2 := h
      exact absurd h2 (by decide)

/-- C6 witness: a second response that itself carries a tool-call segment is
returned raw after exactly two dispatches, nothing further executed. -/
theorem at_most_one_tool_round_wit :
    (run ⟨[], []⟩ [] (Except.ok ⟨"model", [Part.functionCall "zz" []]⟩)
        (Except.ok ⟨"model", [Part.functionCall "again" []]⟩) "t").result =
      Except.ok ⟨"model", [Part.functionCall "again" []]⟩ ∧
    (run ⟨[], []⟩ [] (Except.ok ⟨"model", [Part.functionCall "zz" []]⟩)
        (Except.ok ⟨"model", [Part.functionCall "again" []]⟩) "t").dispatches ≤ 2 :=
  ⟨(at_most_one_tool_round ⟨[], []⟩ [] (Except.ok ⟨"model", [Part.functionCall "zz" []]⟩)
      (Except.ok ⟨"model", [Part.functionCall "again" []]⟩) "t"
      ⟨"model", [Part.functionCall "again" []]⟩
      ⟨"model", [Part.functionCall "again" []]⟩).2.2.2 (by decide),
    (at_most_one_tool_round ⟨[], []⟩ [] (Except.ok ⟨"model", [Part.functionCall "zz" []]⟩)
      (Except.ok ⟨"model", [Part.functionCall "again" []]⟩) "t"
      ⟨"model", [Part.functionCall "again" []]⟩
      ⟨"model", [Part.functionCall "again" []]⟩).1⟩

/-- C7 counterexample: a first response that contains exactly one tool-call
request — but not in first position — yields one dispatch and a 2-turn
store, not the claimed two dispatches and 4-turn store. -/
theorem tool_call_not_first_ce :
    (run ⟨file_tools, []⟩ [("a.txt", "hello")]
        (Except.ok ⟨"model", [Part.text "I will read",
          Part.functionCall "read_file" [("file_path", JValue.s "a.txt")]]⟩)
        (Except.ok ⟨"model", [Part.text "hello"]⟩) "read it").dispatches = 1 ∧
    (run ⟨file_tools, []⟩ [("a.txt", "hello")]
        (Except.ok ⟨"model", [Part.text "I will read",
          Part.functionCall "read_file" [("file_path", JValue.s "a.txt")]]⟩)
        (Except.ok ⟨"model", [Part.text "hello"]⟩) "read it").contents.length = 2 := by
  decide

/-- C7 amended: a first response with no tool-call segment at all is
returned directly after exactly one dispatch. When the first response's
single segment is a tool-call request for a registered tool whose
invocation returns, the run performs exactly two dispatches, returns the
second response, and a fresh session's store ends with exactly 4 turns:
user input, model tool-call, tool result, final model answer. -/
theorem dispatch_count_and_four_turns :
    (∀ (ag : Agent) (fs : FS) (r2 : Except String Content) (t : String) (resp1 : Content),
      (∀ p ∈ resp1.parts, isFunctionCallPart p = false) →
      run ag fs (Except.ok resp1) r2 t =
        ⟨ag.contents ++ [userTextTurn t, resp1], fs, Except.ok resp1, 1, []⟩) ∧
    (∀ (tools : List (String × ToolFn)) (fs0 fs1 : FS) (t nm : String) (a : Args)
        (f : ToolFn) (v : JValue) (resp2 : Content),
      tools.lookup nm = some f → f a fs0 = (Except.ok v, fs1) →
      run ⟨tools, []⟩ fs0 (Except.ok ⟨"model", [Part.functionCall nm a]⟩) (Except.ok resp2) t =
        ⟨[userTextTurn t, ⟨"model", [Part.functionCall nm a]⟩, functionResponseTurn nm v, resp2],
          fs1, Except.ok resp2, 2, [nm]⟩) := by
  constructor
  · intro ag fs r2 t resp1 hno
    have hfc : has_function_call resp1 = false := by
      cases hp : resp1.parts with
      | nil => simp [has_function_call, hp]
      | cons p ps =>
        have hnp := hno p (by rw [hp]; exact List.mem_cons_self _ _)
        simp [has_function_call, hp, hnp]
    simp [run, hfc]
  · intro tools fs0 fs1 t nm a f v resp2 hlk hf
    have hfc : has_function_call ⟨"model", [Part.functionCall nm a]⟩ = true := rfl
    have hE : execCalls tools [(nm, a)]
        ⟨[userTextTurn t, ⟨"model", [Part.functionCall nm a]⟩], fs0, []⟩ =
        Except.ok ⟨[userTextTurn t, ⟨"model", [Part.functionCall nm a]⟩,
          functionResponseTurn nm v], fs1, [nm]⟩ := by
      rw [execCalls_cons_ok tools nm a []
        ⟨[userTextTurn t, ⟨"model", [Part.functionCall nm a]⟩], fs0, []⟩ f v fs1 hlk hf]
      rw [execCalls_nil]
      rfl
    simp [run, hfc, function_calls, hE]

/-- C7 witness: the spec's own test vectors — a pure-text `Berlin` response
for the one-dispatch path, and a `list_dir` stub returning two names for
the two-dispatch, 4-turn path. -/
theorem dispatch_count_and_four_turns_wit :
    run ⟨file_tools, []⟩ [] (Except.ok ⟨"model", [Part.text "Berlin"]⟩)
        (Except.ok ⟨"model", [Part.text "unused"]⟩) "capital of Germany" =
      ⟨[userTextTurn "capital of Germany", ⟨"model", [Part.text "Berlin"]⟩], [],
        Except.ok ⟨"model", [Part.text "Berlin"]⟩, 1, []⟩ ∧
    run ⟨[("list_dir", stubTool (JValue.arr ["a.txt", "b.txt"]))], []⟩ []
        (Except.ok ⟨"model", [Part.functionCall "list_dir" [("directory_path", JValue.s ".")]]⟩)
        (Except.ok ⟨"model", [Part.text "a.txt, b.txt"]⟩) "list the files" =
      ⟨[userTextTurn "list the files",
        ⟨"model", [Part.functionCall "list_dir" [("directory_path", JValue.s ".")]]⟩,
        functionResponseTurn "list_dir" (JValue.arr ["a.txt", "b.txt"]),
        ⟨"model", [Part.text "a.txt, b.txt"]⟩], [],
        Except.ok ⟨"model", [Part.text "a.txt, b.txt"]⟩, 2, ["list_dir"]⟩ :=
  ⟨dispatch_count_and_four_turns.1 ⟨file_tools, []⟩ []
      (Except.ok ⟨"model", [Part.text "unused"]⟩) "capital of Germany"
      ⟨"model", [Part.text "Berlin"]⟩ (by decide),
    dispatch_count_and_four_turns.2 [("list_dir", stubTool (JValue.arr ["a.txt", "b.txt"]))]
      [] [] "list the files" "list_dir" [("directory_path", JValue.s ".")]
      (stubTool (JValue.arr ["a.txt", "b.txt"])) (JValue.arr ["a.txt", "b.txt"])
      ⟨"model", [Part.text "a.txt, b.txt"]⟩ rfl rfl⟩

/-- C8 confirmed: over any sequence of `run` calls the Conversation Store is
append-only — the prior history is always a prefix of the later one (so no
turn is truncated, mutated, or reordered), and each call grows the store by
at least one turn. -/
theorem conversation_store_append_only (ag : Agent) (fs : FS)
    (steps : List (Except String Content × Except String Content × String)) :
    ∃ suf, ((runSeq ag fs steps).1).contents = ag.contents ++ suf ∧
      ag.contents.length + steps.length ≤ ((runSeq ag fs steps).1).contents.length := by
  induction steps generalizing ag fs with
  | nil => exact ⟨[], by simp [runSeq]⟩
  | cons stp rest ih =>
    obtain ⟨r1, r2, t⟩ := stp
    obtain ⟨suf1, h1, hne⟩ := run_extends ag fs r1 r2 t
    obtain ⟨suf2, h2, hlen⟩ := ih ⟨ag.tools, (run ag fs r1 r2 t).contents⟩ (run ag fs r1 r2 t).fs
    have hsuf1 : 1 ≤ suf1.length := by
      cases hs : suf1 with
      | nil => exact absurd hs hne
      | cons x xs => simp
    refine ⟨suf1 ++ suf2, ?_, ?_⟩
    · simp only [runSeq]
      rw [h2, h1, List.append_assoc]
    · simp only [runSeq, List.length_cons]
      have hlen2 : ((runSeq ⟨ag.tools, (run ag fs r1 r2 t).contents⟩
          (run ag fs r1 r2 t).fs rest).1).contents.length ≥
          (run ag fs r1 r2 t).contents.length + rest.length := hlen
      have hgrow : (run ag fs r1 r2 t).contents.length =
          ag.contents.length + suf1.length := by
        rw [h1, List.length_append]
      omega

/-- C9 confirmed: a backend fault from either dispatch escapes `run`
uncaught after exactly that many dispatches (no retry), and every turn
appended before the failing dispatch — the user's input, and additionally
the first-round model turn plus any tool-result turns when the second
dispatch fails — remains in the Conversation Store. -/
theorem backend_fault_propagates_no_rollback :
    (∀ (ag : Agent) (fs : FS) (r2 : Except String Content) (t e : String),
      run ag fs (Except.error e) r2 t =
        ⟨ag.contents ++ [userTextTurn t], fs, Except.error (Fault.backend e), 1, []⟩) ∧
    (∀ (ag : Agent) (fs : FS) (t e : String) (resp1 : Content) (st : ExecState),
      has_function_call resp1 = true →
      execCalls ag.tools (function_calls resp1)
          ⟨ag.contents ++ [userTextTurn t, resp1], fs, []⟩ = Except.ok st →
      run ag fs (Except.ok resp1) (Except.error e) t =
          ⟨st.contents, st.fs, Except.error (Fault.backend e), 2, st.executed⟩ ∧
        ∃ suf, st.contents = ag.contents ++ [userTextTurn t, resp1] ++ suf) := by
  constructor
  · intro ag fs r2 t e
    rfl
  · intro ag fs t e resp1 st hfc hE
    constructor
    · simp [run, hfc, hE]
    · have hext := execCalls_extends ag.tools (function_calls resp1)
        ⟨ag.contents ++ [userTextTurn t, resp1], fs, []⟩
      rw [hE] at hext
      simpa [execOutState] using hext

/-- C9 witness: a first-dispatch fault leaves the user turn appended; a
second-dispatch fault (after a skipped unknown call) leaves the user and
model turns appended; both faults surface with no retry. -/
theorem backend_fault_propagates_no_rollback_wit :
    run ⟨[], []⟩ [] (Except.error "boom") (Except.ok ⟨"model", [Part.text "x"]⟩) "q" =
      ⟨[userTextTurn "q"], [], Except.error (Fault.backend "boom"), 1, []⟩ ∧
    run ⟨[], []⟩ [] (Except.ok ⟨"model", [Part.functionCall "ghost" []]⟩)
        (Except.error "late") "q2" =
      ⟨[userTextTurn "q2", ⟨"model", [Part.functionCall "ghost" []]⟩], [],
        Except.error (Fault.backend "late"), 2, []⟩ ∧
    ∃ suf, ([userTextTurn "q2", ⟨"model", [Part.functionCall "ghost" []]⟩] : List Content) =
      [] ++ [userTextTurn "q2", ⟨"model", [Part.functionCall "ghost" []]⟩] ++ suf :=
  ⟨backend_fault_propagates_no_rollback.1 ⟨[], []⟩ []
      (Except.ok ⟨"model", [Part.text "x"]⟩) "q" "boom",
    (backend_fault_propagates_no_rollback.2 ⟨[], []⟩ [] "q2" "late"
      ⟨"model", [Part.functionCall "ghost" []]⟩
      ⟨[userTextTurn "q2", ⟨"model", [Part.functionCall "ghost" []]⟩], [], []⟩ rfl rfl).1,
    (backend_fault_propagates_no_rollback.2 ⟨[], []⟩ [] "q2" "late"
      ⟨"model", [Part.functionCall "ghost" []]⟩
      ⟨[userTextTurn "q2", ⟨"model", [Part.functionCall "ghost" []]⟩], [], []⟩ rfl rfl).2⟩

/-- C10 confirmed: the tool-less `Agent.run` of geminiTest.py performs one
dispatch, appends exactly the user turn then the response content (all
earlier entries untouched as a prefix), returns the response; a session of
n calls starting from an empty history therefore holds exactly 2n entries. -/
theorem gemini_test_run_appends_two_turns :
    (∀ (cs : List Content) (resp : Content) (t : String),
      GeminiTest.run cs (Except.ok resp) t =
        ⟨cs ++ [userTextTurn t, resp], Except.ok resp, 1⟩) ∧
    (∀ steps : List (String × Content), (GeminiTest.runSeq [] steps).length = 2 * steps.length) := by
  constructor
  · intro cs resp t
    rfl
  · intro steps
    simpa using geminiTest_runSeq_length steps []
